import Mathlib

/-!
Shallow embedding of the scheduled-post publishing engine of the fedisched
repository (src/app/scheduler.py, src/app/api/posts.py, src/app/models.py).

Modelling conventions:
- Timestamps are natural numbers measured in minutes, so that the Python
  expression timedelta(minutes = d) becomes addition of d.
- The database session is a list of rows in insertion order (ascending
  primary-key id); a committed ORM mutation of a row is modelled by
  replacing the row with the same id.
- Python exceptions raised by the external collaborators (credential
  decryption, the two platform adapter SDK calls) are inputs of the model:
  a PublishEnv record says, for each call, whether it returns normally,
  raises ValueError, or raises any other exception. The embedded functions
  are total; the try/except structure of the source determines how each
  outcome is folded into the returned value.
-/

namespace Fedisched

/-- Status column of a scheduled post. The source stores it as a string
with exactly these four values. -/
inductive Status
  | scheduled
  | publishing
  | published
  | failed
deriving DecidableEq, Repr

/-- Row of the scheduledpost table (src/app/models.py, class ScheduledPost),
restricted to the columns the engine reads or writes. -/
structure ScheduledPost where
  id : Nat
  user_id : Nat
  account_id : Nat
  content : String
  scheduled_at : Nat
  published_at : Option Nat
  status : Status
  platform : String
  retry_count : Nat
  last_error : Option String
  created_at : Nat
deriving DecidableEq, Repr

/-- Row of the account table (src/app/models.py, class Account), restricted
to the columns the engine reads. -/
structure Account where
  id : Nat
  user_id : Nat
  platform : String
  account_id : String
  encrypted_credentials : String
  instance_url : Option String
deriving DecidableEq, Repr

/-- Outcome of one call to decrypt_credential: normal return, ValueError,
or any other exception (each with the stringified message). -/
inductive DecryptResult
  | ok (plaintext : String)
  | valueError (msg : String)
  | otherError (msg : String)
deriving DecidableEq, Repr

/-- Outcome of one adapter post_status call: normal return of the published
URL, ValueError, or any other exception. -/
inductive AdapterResult
  | ok (url : String)
  | valueError (msg : String)
  | otherError (msg : String)
deriving DecidableEq, Repr

/-- Behaviour of the external collaborators during one publish attempt:
credential decryption and the two platform adapters. -/
structure PublishEnv where
  decrypt : String → DecryptResult
  mastodonPost : Option String → String → String → AdapterResult
  blueskyPost : String → String → AdapterResult

/-- A network contact made by an adapter during dispatch. -/
inductive NetworkCall
  | mastodonCall (instanceUrl : Option String) (content : String)
  | blueskyCall (content : String)
deriving DecidableEq, Repr

/-- Embedding of PostScheduler._publish_to_account (src/app/scheduler.py
lines 185-222), instrumented with the list of network calls it makes.
The source decrypts the credential first, inside the try block, then
branches on account.platform; ValueError is caught and stringified, any
other exception is caught and prefixed with the text Unexpected error. -/
def publishToAccountTr (env : PublishEnv) (post : ScheduledPost)
    (account : Account) :
    (Bool × Option String × Option String) × List NetworkCall :=
  match env.decrypt account.encrypted_credentials with
  | DecryptResult.valueError m => ((false, some m, none), [])
  | DecryptResult.otherError m =>
      ((false, some ("Unexpected error: " ++ m), none), [])
  | DecryptResult.ok credentials =>
      if account.platform = "mastodon" then
        let call := NetworkCall.mastodonCall account.instance_url post.content
        match env.mastodonPost account.instance_url credentials post.content with
        | AdapterResult.ok url => ((true, none, some url), [call])
        | AdapterResult.valueError m => ((false, some m, none), [call])
        | AdapterResult.otherError m =>
            ((false, some ("Unexpected error: " ++ m), none), [call])
      else if account.platform = "bluesky" then
        let call := NetworkCall.blueskyCall post.content
        match env.blueskyPost credentials post.content with
        | AdapterResult.ok url => ((true, none, some url), [call])
        | AdapterResult.valueError m => ((false, some m, none), [call])
        | AdapterResult.otherError m =>
            ((false, some ("Unexpected error: " ++ m), none), [call])
      else
        ((false, some ("Unsupported platform: " ++ account.platform), none), [])

/-- Result triple (success, error_message, published_url) of
PostScheduler._publish_to_account. -/
def publishToAccount (env : PublishEnv) (post : ScheduledPost)
    (account : Account) : Bool × Option String × Option String :=
  (publishToAccountTr env post account).1

/-- Observable event of one scheduler pass: a committed write of a post row,
or the start of a dispatch (publish) call for a post id. -/
inductive PersistEvent
  | persist (p : ScheduledPost)
  | dispatch (postId : Nat)
deriving DecidableEq, Repr

/-- Embedding of PostScheduler._process_post (src/app/scheduler.py lines
109-183). Returns the final row together with the ordered list of events:
the claim write (status publishing) is committed first; if the account row
is missing the post is marked failed with no dispatch; otherwise dispatch
runs and the success, retry or permanent-failure transition is committed.
The retry branch uses delay 2 ^ retry_count minutes. -/
def processPost (env : PublishEnv) (accounts : List Account) (now : Nat)
    (post : ScheduledPost) : ScheduledPost × List PersistEvent :=
  let claimed := { post with status := Status.publishing }
  match accounts.find? (fun a => a.id == post.account_id) with
  | none =>
      let noAcct := { claimed with
        status := Status.failed,
        last_error := some ("Account " ++ toString post.account_id ++ " not found") }
      (noAcct, [PersistEvent.persist claimed, PersistEvent.persist noAcct])
  | some account =>
      match publishToAccount env claimed account with
      | (true, _, _) =>
          let done := { claimed with
            status := Status.published,
            published_at := some now,
            last_error := none }
          (done, [PersistEvent.persist claimed, PersistEvent.dispatch post.id,
                  PersistEvent.persist done])
      | (false, error, _) =>
          if claimed.retry_count < 3 then
            let delayMinutes := 2 ^ claimed.retry_count
            let retried := { claimed with
              retry_count := claimed.retry_count + 1,
              last_error := error,
              scheduled_at := now + delayMinutes,
              status := Status.scheduled }
            (retried, [PersistEvent.persist claimed, PersistEvent.dispatch post.id,
                       PersistEvent.persist retried])
          else
            let maxed := { claimed with
              status := Status.failed,
              last_error := error }
            (maxed, [PersistEvent.persist claimed, PersistEvent.dispatch post.id,
                     PersistEvent.persist maxed])

/-- Due predicate of process_due_posts (src/app/scheduler.py lines 93-97):
status is scheduled and scheduled_at has passed. -/
def dueAt (now : Nat) (p : ScheduledPost) : Bool :=
  p.status == Status.scheduled && decide (p.scheduled_at ≤ now)

/-- Embedding of the due-post query of process_due_posts (src/app/scheduler.py
lines 94-99): select rows where status is scheduled and scheduled_at is at
most now, ordered by scheduled_at ascending. The table is scanned in
insertion order and the order-by is modelled as a stable insertion sort on
the scheduled_at key, which is how the SQLite backend returns rows that tie
on the sort key. -/
def selectDue (now : Nat) (posts : List ScheduledPost) : List ScheduledPost :=
  List.insertionSort (fun a b => a.scheduled_at ≤ b.scheduled_at)
    (posts.filter (dueAt now))

/-- Committing a mutated ORM row: the row with the same primary key is
replaced, every other row is untouched. -/
def updatePost (posts : List ScheduledPost) (p2 : ScheduledPost) :
    List ScheduledPost :=
  posts.map (fun q => if q.id = p2.id then p2 else q)

/-- Repository effect of one poll cycle (process_due_posts, src/app/scheduler.py
lines 82-107): each due post, in selector order, is processed and its final
row committed. -/
def runCycle (env : PublishEnv) (accounts : List Account) (now : Nat)
    (posts : List ScheduledPost) : List ScheduledPost :=
  (selectDue now posts).foldl
    (fun repo p => updatePost repo (processPost env accounts now p).1) posts

/-- Event trace of one poll cycle: the per-post event lists of
processPost, concatenated in selector order. -/
def processDuePostsTrace (env : PublishEnv) (accounts : List Account)
    (now : Nat) (posts : List ScheduledPost) : List PersistEvent :=
  (selectDue now posts).flatMap (fun p => (processPost env accounts now p).2)

/-- Effect of startup recovery on one row (PostScheduler._reset_stuck_posts,
src/app/scheduler.py lines 61-80): a row in status publishing gets status
scheduled and nothing else changes; every other row is untouched. -/
def resetOne (p : ScheduledPost) : ScheduledPost :=
  if p.status = Status.publishing then { p with status := Status.scheduled }
  else p

/-- Repository effect of PostScheduler._reset_stuck_posts: the reset applied
to every row of the table. -/
def resetStuckPosts (posts : List ScheduledPost) : List ScheduledPost :=
  posts.map resetOne

/-- Observable actions of PostScheduler.start (src/app/scheduler.py lines
33-53), in program order. -/
inductive StartAction
  | resetStuckAction
  | addJobAction
  | startSchedAction
deriving DecidableEq, Repr

/-- Embedding of PostScheduler.start: if a job is already registered nothing
happens; otherwise stuck posts are reset, then the polling job is added,
then the scheduler is started. -/
def schedulerStartActions (alreadyStarted : Bool) : List StartAction :=
  if alreadyStarted then []
  else [StartAction.resetStuckAction, StartAction.addJobAction,
        StartAction.startSchedAction]

/-- Persisted-status view of the repository as a trace is replayed: a
persist event overwrites the status stored under the id of its row. -/
def applyPersist (st : Nat → Option Status) (e : PersistEvent) :
    Nat → Option Status :=
  match e with
  | PersistEvent.persist p => fun i => if i = p.id then some p.status else st i
  | PersistEvent.dispatch _ => st

/-- Dispatch-safety of a trace given an initial persisted-status view: every
dispatch event fires while the persisted status of its post is publishing. -/
def dispatchSafe (st : Nat → Option Status) : List PersistEvent → Prop
  | [] => True
  | PersistEvent.persist p :: tr =>
      dispatchSafe (applyPersist st (PersistEvent.persist p)) tr
  | PersistEvent.dispatch pid :: tr =>
      st pid = some Status.publishing ∧ dispatchSafe st tr

/-- Row created by the create_post endpoint for one target account
(src/app/api/posts.py lines 165-177): status is publishing on the immediate
path and scheduled otherwise; published_at, last_error start empty and
retry_count starts at zero. -/
def mkNewPost (id uid accountId : Nat) (content : String)
    (scheduledTime : Nat) (platform : String) (isImmediate : Bool)
    (createdAt : Nat) : ScheduledPost :=
  { id := id, user_id := uid, account_id := accountId, content := content,
    scheduled_at := scheduledTime, published_at := none,
    status := if isImmediate then Status.publishing else Status.scheduled,
    platform := platform, retry_count := 0, last_error := none,
    created_at := createdAt }

/-- Outcome transition of the immediate-publish path of create_post
(src/app/api/posts.py lines 179-207): success sets status published and
published_at; failure sets status failed, last_error and increments
retry_count. The success branch does not touch last_error. -/
def immediatePublishResult (env : PublishEnv) (post : ScheduledPost)
    (account : Account) (now : Nat) : ScheduledPost :=
  match publishToAccount env post account with
  | (true, _, _) =>
      { post with status := Status.published, published_at := some now }
  | (false, error, _) =>
      { post with
        status := Status.failed,
        last_error := error,
        retry_count := post.retry_count + 1 }

/-- Outcome transition of the retry_post endpoint after the publish attempt
(src/app/api/posts.py lines 297-312): success sets status published,
published_at and clears last_error; failure sets status failed, last_error
and increments retry_count, with no reschedule and no backoff. -/
def retryPublishResult (env : PublishEnv) (post : ScheduledPost)
    (account : Account) (now : Nat) : ScheduledPost :=
  match publishToAccount env post account with
  | (true, _, _) =>
      { post with
        status := Status.published,
        published_at := some now,
        last_error := none }
  | (false, error, _) =>
      { post with
        status := Status.failed,
        last_error := error,
        retry_count := post.retry_count + 1 }

/-- HTTP-level result of the retry_post endpoint. -/
inductive RetryResponse
  | httpError (statusCode : Nat) (detail : String)
  | done (success : Bool) (message : String)
deriving DecidableEq, Repr

/-- String stored in the status column for each state. -/
def statusText : Status → String
  | Status.scheduled => "scheduled"
  | Status.publishing => "publishing"
  | Status.published => "published"
  | Status.failed => "failed"

/-- Embedding of the retry_post endpoint (src/app/api/posts.py lines
252-312): look up the post by id and owner, reject unless its status is
failed or scheduled, look up the account, claim the post as publishing,
attempt the publish and commit the outcome of retryPublishResult. Returns
the response and the updated table. -/
def retryPost (env : PublishEnv) (posts : List ScheduledPost)
    (accounts : List Account) (userId postId now : Nat) :
    RetryResponse × List ScheduledPost :=
  match posts.find? (fun p => p.id == postId && p.user_id == userId) with
  | none => (RetryResponse.httpError 404 "Post not found", posts)
  | some post =>
      if post.status ≠ Status.failed ∧ post.status ≠ Status.scheduled then
        (RetryResponse.httpError 400
          ("Cannot retry post with status \x27" ++ statusText post.status
            ++ "\x27"), posts)
      else
        match accounts.find? (fun a =>
            a.id == post.account_id && a.user_id == userId) with
        | none => (RetryResponse.httpError 404 "Account not found", posts)
        | some account =>
            let claimed := { post with status := Status.publishing }
            let posts1 := updatePost posts claimed
            let final := retryPublishResult env claimed account now
            let response :=
              match publishToAccount env claimed account with
              | (true, _, _) =>
                  RetryResponse.done true "Post published successfully"
              | (false, error, _) =>
                  RetryResponse.done false (error.getD "Unknown error")
            (response, updatePost posts1 final)

/-- States of one post row reachable through the engine transitions
(claim, resolve, crash recovery) and the external operations of the API
(create with or without immediate publish, manual retry), each applied
under the status guard the source enforces on that path. -/
inductive ReachablePost : ScheduledPost → Prop
  | created (id uid accountId : Nat) (content : String) (scheduledTime : Nat)
      (platform : String) (isImmediate : Bool) (createdAt : Nat) :
      ReachablePost
        (mkNewPost id uid accountId content scheduledTime platform
          isImmediate createdAt)
  | immediateResolved (env : PublishEnv) (account : Account) (now : Nat)
      (p : ScheduledPost) :
      ReachablePost p → p.status = Status.publishing →
      ReachablePost (immediatePublishResult env p account now)
  | engineClaimed (p : ScheduledPost) :
      ReachablePost p → p.status = Status.scheduled →
      ReachablePost { p with status := Status.publishing }
  | engineResolved (env : PublishEnv) (accounts : List Account) (now : Nat)
      (p : ScheduledPost) :
      ReachablePost p → p.status = Status.scheduled →
      ReachablePost (processPost env accounts now p).1
  | recovered (p : ScheduledPost) :
      ReachablePost p → p.status = Status.publishing →
      ReachablePost { p with status := Status.scheduled }
  | retryClaimed (p : ScheduledPost) :
      ReachablePost p →
      p.status = Status.failed ∨ p.status = Status.scheduled →
      ReachablePost { p with status := Status.publishing }
  | retryResolved (env : PublishEnv) (account : Account) (now : Nat)
      (p : ScheduledPost) :
      ReachablePost p → p.status = Status.publishing →
      ReachablePost (retryPublishResult env p account now)

/-! Helper lemmas characterizing the branches of processPost and the
selector, shared by the claim theorems below. -/

theorem processPost_found_fail_retry (env : PublishEnv) (accounts : List Account)
    (now : Nat) (post : ScheduledPost) (account : Account)
    (err : Option String) (url : Option String)
    (hacct : accounts.find? (fun a => a.id == post.account_id) = some account)
    (hpub : publishToAccount env { post with status := Status.publishing } account
      = (false, err, url))
    (hn : post.retry_count < 3) :
    (processPost env accounts now post).1 = { post with
      status := Status.scheduled,
      retry_count := post.retry_count + 1,
      last_error := err,
      scheduled_at := now + 2 ^ post.retry_count } := by
  simp only [processPost, hacct, hpub]
  simp [hn]

theorem processPost_found_fail_maxed (env : PublishEnv) (accounts : List Account)
    (now : Nat) (post : ScheduledPost) (account : Account)
    (err : Option String) (url : Option String)
    (hacct : accounts.find? (fun a => a.id == post.account_id) = some account)
    (hpub : publishToAccount env { post with status := Status.publishing } account
      = (false, err, url))
    (hn : 3 ≤ post.retry_count) :
    (processPost env accounts now post).1 = { post with
      status := Status.failed,
      last_error := err } := by
  simp only [processPost, hacct, hpub]
  have hlt : ¬ post.retry_count < 3 := by omega
  simp [hlt]

theorem processPost_found_success (env : PublishEnv) (accounts : List Account)
    (now : Nat) (post : ScheduledPost) (account : Account)
    (err : Option String) (url : Option String)
    (hacct : accounts.find? (fun a => a.id == post.account_id) = some account)
    (hpub : publishToAccount env { post with status := Status.publishing } account
      = (true, err, url)) :
    (processPost env accounts now post).1 = { post with
      status := Status.published,
      published_at := some now,
      last_error := none } := by
  simp only [processPost, hacct, hpub]

theorem processPost_noacct (env : PublishEnv) (accounts : List Account)
    (now : Nat) (post : ScheduledPost)
    (hacct : accounts.find? (fun a => a.id == post.account_id) = none) :
    (processPost env accounts now post).1 = { post with
      status := Status.failed,
      last_error := some ("Account " ++ toString post.account_id ++ " not found") }
    ∧ (processPost env accounts now post).2
      = [PersistEvent.persist { post with status := Status.publishing },
         PersistEvent.persist { post with
           status := Status.failed,
           last_error := some ("Account " ++ toString post.account_id
             ++ " not found") }] := by
  simp [processPost, hacct]

theorem mem_selectDue (now : Nat) (posts : List ScheduledPost)
    (q : ScheduledPost) :
    q ∈ selectDue now posts
      ↔ q ∈ posts ∧ q.status = Status.scheduled ∧ q.scheduled_at ≤ now := by
  unfold selectDue
  rw [(List.perm_insertionSort _ _).mem_iff, List.mem_filter]
  simp [dueAt, and_assoc]

/-- Strict lexicographic order on due posts: earlier scheduled_at first,
ties broken by smaller id (insertion order). -/
def dueOrder (a b : ScheduledPost) : Prop :=
  a.scheduled_at < b.scheduled_at
    ∨ (a.scheduled_at = b.scheduled_at ∧ a.id < b.id)

theorem dueOrder_key_le {a b : ScheduledPost} (h : dueOrder a b) :
    a.scheduled_at ≤ b.scheduled_at := by
  rcases h with h | ⟨h, _⟩
  · exact Nat.le_of_lt h
  · exact Nat.le_of_eq h

theorem pairwise_dueOrder_orderedInsert (x : ScheduledPost)
    (l : List ScheduledPost) (hl : l.Pairwise dueOrder)
    (hid : ∀ b ∈ l, x.id < b.id) :
    (List.orderedInsert (fun a b => a.scheduled_at ≤ b.scheduled_at) x l).Pairwise
      dueOrder := by
  induction l with
  | nil => simp [List.orderedInsert]
  | cons b l ih =>
    rcases List.pairwise_cons.mp hl with ⟨hbl, hl2⟩
    by_cases h : x.scheduled_at ≤ b.scheduled_at
    · rw [List.orderedInsert, if_pos h]
      refine List.pairwise_cons.mpr ⟨?_, hl⟩
      intro y hy
      rcases List.mem_cons.mp hy with rfl | hyl
      · rcases Nat.lt_or_ge x.scheduled_at y.scheduled_at with hlt | hge
        · exact Or.inl hlt
        · exact Or.inr ⟨Nat.le_antisymm h hge, hid y (List.mem_cons_self _ _)⟩
      · have hby : b.scheduled_at ≤ y.scheduled_at := dueOrder_key_le (hbl y hyl)
        rcases Nat.lt_or_ge x.scheduled_at y.scheduled_at with hlt | hge
        · exact Or.inl hlt
        · exact Or.inr ⟨Nat.le_antisymm (Nat.le_trans h hby) hge,
            hid y (List.mem_cons_of_mem b hyl)⟩
    · rw [List.orderedInsert, if_neg h]
      have hbx : b.scheduled_at < x.scheduled_at := Nat.lt_of_not_le h
      refine List.pairwise_cons.mpr ⟨?_, ?_⟩
      · intro y hy
        rw [List.mem_orderedInsert] at hy
        rcases hy with rfl | hyl
        · exact Or.inl hbx
        · exact hbl y hyl
      · exact ih hl2 (fun c hc => hid c (List.mem_cons_of_mem b hc))

theorem pairwise_dueOrder_insertionSort (l : List ScheduledPost)
    (hids : l.Pairwise (fun a b => a.id < b.id)) :
    (List.insertionSort (fun a b => a.scheduled_at ≤ b.scheduled_at) l).Pairwise
      dueOrder := by
  induction l with
  | nil => simp
  | cons x l ih =>
    rcases List.pairwise_cons.mp hids with ⟨hxl, hl⟩
    rw [List.insertionSort]
    refine pairwise_dueOrder_orderedInsert x _ (ih hl) ?_
    intro b hb
    exact hxl b ((List.perm_insertionSort _ l).subset hb)

theorem filter_pairwise_ids (posts : List ScheduledPost) (now : Nat)
    (hids : posts.Pairwise (fun a b => a.id < b.id)) :
    (posts.filter (dueAt now)).Pairwise (fun a b => a.id < b.id) :=
  hids.filter _

theorem selectDue_pairwise_dueOrder (posts : List ScheduledPost) (now : Nat)
    (hids : posts.Pairwise (fun a b => a.id < b.id)) :
    (selectDue now posts).Pairwise dueOrder :=
  pairwise_dueOrder_insertionSort _ (filter_pairwise_ids posts now hids)


theorem dispatchSafe_append (l1 l2 : List PersistEvent) :
    ∀ st : Nat → Option Status,
    dispatchSafe st (l1 ++ l2)
      ↔ dispatchSafe st l1 ∧ dispatchSafe (l1.foldl applyPersist st) l2 := by
  induction l1 with
  | nil => intro st; simp [dispatchSafe]
  | cons e l1 ih =>
    intro st
    cases e with
    | persist p =>
        simp only [List.cons_append, dispatchSafe, List.foldl_cons]
        exact ih _
    | dispatch pid =>
        simp only [List.cons_append, dispatchSafe, List.foldl_cons, applyPersist]
        rw [show dispatchSafe st (l1.append l2) = dispatchSafe st (l1 ++ l2) from rfl,
          ih st]
        tauto

theorem dispatchSafe_processPost (env : PublishEnv) (accounts : List Account)
    (now : Nat) (post : ScheduledPost) (st : Nat → Option Status) :
    dispatchSafe st (processPost env accounts now post).2 := by
  unfold processPost
  cases hacct : accounts.find? (fun a => a.id == post.account_id) with
  | none => simp [dispatchSafe]
  | some account =>
    rcases hpub : publishToAccount env { post with status := Status.publishing } account
      with ⟨b, e, u⟩
    cases b with
    | true => simp [hpub, dispatchSafe, applyPersist]
    | false =>
        by_cases hn : post.retry_count < 3 <;>
          simp [hpub, dispatchSafe, applyPersist, hn]

theorem dispatchSafe_flatMap (env : PublishEnv) (accounts : List Account)
    (now : Nat) (ps : List ScheduledPost) :
    ∀ st : Nat → Option Status,
    dispatchSafe st (ps.flatMap (fun p => (processPost env accounts now p).2)) := by
  induction ps with
  | nil => intro st; simp [dispatchSafe]
  | cons p ps ih =>
    intro st
    rw [List.flatMap_cons, dispatchSafe_append]
    exact ⟨dispatchSafe_processPost env accounts now p st, ih _⟩

theorem processPost_head_last (env : PublishEnv) (accounts : List Account)
    (now : Nat) (post : ScheduledPost) :
    (processPost env accounts now post).2.head?
      = some (PersistEvent.persist { post with status := Status.publishing })
    ∧ (processPost env accounts now post).2.getLast?
      = some (PersistEvent.persist (processPost env accounts now post).1) := by
  unfold processPost
  cases hacct : accounts.find? (fun a => a.id == post.account_id) with
  | none => simp
  | some account =>
    rcases hpub : publishToAccount env { post with status := Status.publishing } account
      with ⟨b, e, u⟩
    cases b with
    | true => simp [hpub]
    | false => by_cases hn : post.retry_count < 3 <;> simp [hpub, hn]


theorem inv_processPost (env : PublishEnv) (accounts : List Account)
    (now : Nat) (p : ScheduledPost) (hp : p.published_at = none) :
    ((processPost env accounts now p).1.published_at.isSome
      ↔ (processPost env accounts now p).1.status = Status.published) := by
  unfold processPost
  cases hacct : accounts.find? (fun a => a.id == p.account_id) with
  | none => simp [hp]
  | some account =>
    rcases hpub : publishToAccount env { p with status := Status.publishing } account
      with ⟨b, e, u⟩
    rw [hp] at hpub
    cases b with
    | true => simp [hp, hpub]
    | false => by_cases hn : p.retry_count < 3 <;> simp [hpub, hn, hp]

theorem inv_immediatePublishResult (env : PublishEnv) (p : ScheduledPost)
    (account : Account) (now : Nat) (hp : p.published_at = none) :
    ((immediatePublishResult env p account now).published_at.isSome
      ↔ (immediatePublishResult env p account now).status = Status.published) := by
  unfold immediatePublishResult
  rcases hpub : publishToAccount env p account with ⟨b, e, u⟩
  cases b with
  | true => simp
  | false => simp [hp]

theorem inv_retryPublishResult (env : PublishEnv) (p : ScheduledPost)
    (account : Account) (now : Nat) (hp : p.published_at = none) :
    ((retryPublishResult env p account now).published_at.isSome
      ↔ (retryPublishResult env p account now).status = Status.published) := by
  unfold retryPublishResult
  rcases hpub : publishToAccount env p account with ⟨b, e, u⟩
  cases b with
  | true => simp
  | false => simp [hp]

theorem inv_of_not_published (p : ScheduledPost)
    (hinv : p.published_at.isSome ↔ p.status = Status.published)
    (hs : p.status ≠ Status.published) : p.published_at = none := by
  rcases hp : p.published_at with _ | t
  · rfl
  · exact absurd (hinv.mp (by simp [hp])) hs


/-! Concrete fixtures used by witnesses and counterexamples. -/

/-- Environment where decryption succeeds and both adapters raise
ValueError boom. -/
def envFail : PublishEnv :=
  { decrypt := fun _ => DecryptResult.ok "tok",
    mastodonPost := fun _ _ _ => AdapterResult.valueError "boom",
    blueskyPost := fun _ _ => AdapterResult.valueError "boom" }

/-- Environment where decryption succeeds and both adapters succeed. -/
def envOk : PublishEnv :=
  { decrypt := fun _ => DecryptResult.ok "tok",
    mastodonPost := fun _ _ _ => AdapterResult.ok "https://example/1",
    blueskyPost := fun _ _ => AdapterResult.ok "https://example/1" }

/-- Environment where decryption raises ValueError, as decrypt_credential
does on a corrupt blob. -/
def envBadCred : PublishEnv :=
  { decrypt := fun _ => DecryptResult.valueError
      "Invalid encryption token or corrupted data",
    mastodonPost := fun _ _ _ => AdapterResult.ok "https://example/1",
    blueskyPost := fun _ _ => AdapterResult.ok "https://example/1" }

/-- A mastodon account with id 1. -/
def accMast : Account :=
  { id := 1, user_id := 1, platform := "mastodon", account_id := "alice",
    encrypted_credentials := "enc", instance_url := some "https://m.test" }

/-- An account whose platform has no registered adapter. -/
def accUnknown : Account :=
  { id := 2, user_id := 1, platform := "unknown", account_id := "bob",
    encrypted_credentials := "enc", instance_url := none }

/-- A due scheduled post with retry_count zero, targeting account 1. -/
def postW : ScheduledPost :=
  { id := 7, user_id := 1, account_id := 1, content := "hi",
    scheduled_at := 900, published_at := none, status := Status.scheduled,
    platform := "mastodon", retry_count := 0, last_error := none,
    created_at := 0 }

/-- The same post after three recorded attempts. -/
def postMaxed : ScheduledPost := { postW with retry_count := 3 }

/-- The same post in terminal failed state. -/
def postFailedW : ScheduledPost := { postW with status := Status.failed }

/-- A post stuck in publishing, as left behind by a crash. -/
def postStuck : ScheduledPost := { postW with status := Status.publishing }

/-- C1 (amended): for every due post whose adapter call fails while
retry_count = n with n < 3, the engine transitions the post from publishing
back to scheduled, sets retry_count to n+1, sets last_error to the failure
message, and sets scheduled_at to now + 2^n minutes, that is, delays of
1, 2, 4 minutes before retries 1, 2, 3. -/
theorem engineRetryBackoffDelay (env : PublishEnv) (accounts : List Account)
    (now : Nat) (post : ScheduledPost) (account : Account) (msg : String)
    (url : Option String)
    (hacct : accounts.find? (fun a => a.id == post.account_id) = some account)
    (hpub : publishToAccount env { post with status := Status.publishing } account
      = (false, some msg, url))
    (hn : post.retry_count < 3) :
    (processPost env accounts now post).1.status = Status.scheduled
    ∧ (processPost env accounts now post).1.retry_count = post.retry_count + 1
    ∧ (processPost env accounts now post).1.last_error = some msg
    ∧ (processPost env accounts now post).1.scheduled_at
        = now + 2 ^ post.retry_count := by
  rw [processPost_found_fail_retry env accounts now post account (some msg) url
    hacct hpub hn]
  exact ⟨rfl, rfl, rfl, rfl⟩

/-- Witness for C1 at a concrete failing dispatch with retry_count 0. -/
theorem engineRetryBackoffDelayWitness :
    (processPost envFail [accMast] 1000 postW).1.status = Status.scheduled
    ∧ (processPost envFail [accMast] 1000 postW).1.retry_count
        = postW.retry_count + 1
    ∧ (processPost envFail [accMast] 1000 postW).1.last_error = some "boom"
    ∧ (processPost envFail [accMast] 1000 postW).1.scheduled_at
        = 1000 + 2 ^ postW.retry_count :=
  engineRetryBackoffDelay envFail [accMast] 1000 postW accMast "boom" none
    rfl rfl (by decide)

/-- C1 counterexample: at a concrete failing dispatch with retry_count = 0
the engine sets scheduled_at to now + 2^0 = 1 minute, not the
now + 2^(0+1) = 2 minutes the claim states. -/
theorem engineRetryBackoffDelayCex :
    postW.retry_count = 0
    ∧ postW.retry_count < 3
    ∧ (publishToAccount envFail { postW with status := Status.publishing } accMast).1
        = false
    ∧ (processPost envFail [accMast] 1000 postW).1.status = Status.scheduled
    ∧ (processPost envFail [accMast] 1000 postW).1.scheduled_at = 1001
    ∧ (processPost envFail [accMast] 1000 postW).1.scheduled_at
        ≠ 1000 + 2 ^ (postW.retry_count + 1) := by
  refine ⟨rfl, by decide, rfl, rfl, rfl, by decide⟩

/-- C2: for every due post whose adapter call fails while retry_count is at
least 3, the engine transitions the post from publishing to failed, sets
last_error to the failure message, leaves retry_count, scheduled_at and
published_at unchanged; and a failed post is terminal for the engine: it is
never selected as due and crash recovery leaves it untouched. -/
theorem engineMaxRetriesTerminalFailure (env : PublishEnv)
    (accounts : List Account) (now : Nat) (post : ScheduledPost)
    (account : Account) (msg : String) (url : Option String)
    (hacct : accounts.find? (fun a => a.id == post.account_id) = some account)
    (hpub : publishToAccount env { post with status := Status.publishing } account
      = (false, some msg, url))
    (hn : 3 ≤ post.retry_count) :
    (processPost env accounts now post).1.status = Status.failed
    ∧ (processPost env accounts now post).1.last_error = some msg
    ∧ (processPost env accounts now post).1.retry_count = post.retry_count
    ∧ (processPost env accounts now post).1.scheduled_at = post.scheduled_at
    ∧ (processPost env accounts now post).1.published_at = post.published_at
    ∧ (∀ q : ScheduledPost, q.status = Status.failed →
        (∀ now2 posts2, q ∉ selectDue now2 posts2) ∧ resetOne q = q) := by
  rw [processPost_found_fail_maxed env accounts now post account (some msg) url
    hacct hpub hn]
  refine ⟨rfl, rfl, rfl, rfl, rfl, ?_⟩
  intro q hq
  constructor
  · intro now2 posts2 hmem
    rcases (mem_selectDue now2 posts2 q).mp hmem with ⟨_, hs, _⟩
    rw [hq] at hs
    exact Status.noConfusion hs
  · unfold resetOne
    rw [hq]
    simp

/-- Witness for C2 at a concrete failing dispatch with retry_count 3. -/
theorem engineMaxRetriesTerminalFailureWitness :
    (processPost envFail [accMast] 1000 postMaxed).1.status = Status.failed
    ∧ (processPost envFail [accMast] 1000 postMaxed).1.last_error = some "boom"
    ∧ (processPost envFail [accMast] 1000 postMaxed).1.retry_count
        = postMaxed.retry_count
    ∧ resetOne postFailedW = postFailedW := by
  have h := engineMaxRetriesTerminalFailure envFail [accMast] 1000 postMaxed
    accMast "boom" none rfl rfl (by decide)
  exact ⟨h.1, h.2.1, h.2.2.1, (h.2.2.2.2.2 postFailedW rfl).2⟩

/-- C10: when a due post references an account id that does not resolve,
the engine moves the post straight from publishing to failed with
last_error set to the text Account id not found, keeps retry_count
unchanged whatever its value, and makes no dispatch call. -/
theorem missingAccountImmediateFailure (env : PublishEnv)
    (accounts : List Account) (now : Nat) (post : ScheduledPost)
    (hacct : accounts.find? (fun a => a.id == post.account_id) = none) :
    (processPost env accounts now post).1 = { post with
      status := Status.failed,
      last_error := some ("Account " ++ toString post.account_id ++ " not found") }
    ∧ (processPost env accounts now post).1.retry_count = post.retry_count
    ∧ (∀ pid, PersistEvent.dispatch pid ∉ (processPost env accounts now post).2) := by
  obtain ⟨h1, h2⟩ := processPost_noacct env accounts now post hacct
  refine ⟨h1, by rw [h1], ?_⟩
  intro pid hmem
  rw [h2] at hmem
  simp at hmem

/-- Witness for C10 with an empty account table. -/
theorem missingAccountImmediateFailureWitness :
    (processPost envFail [] 1000 postW).1 = { postW with
      status := Status.failed,
      last_error := some ("Account " ++ toString postW.account_id ++ " not found") }
    ∧ PersistEvent.dispatch postW.id ∉ (processPost envFail [] 1000 postW).2 :=
  ⟨(missingAccountImmediateFailure envFail [] 1000 postW rfl).1,
   (missingAccountImmediateFailure envFail [] 1000 postW rfl).2.2 postW.id⟩

/-- C3: at scheduler startup the stuck-post reset runs before the polling
job is registered, every post in status publishing is reset to scheduled
with all other fields (in particular retry_count and scheduled_at)
unchanged, every other post is untouched, and afterwards no post is in
status publishing. -/
theorem startupRecoveryResetsStuckPosts (posts : List ScheduledPost) :
    schedulerStartActions false
      = [StartAction.resetStuckAction, StartAction.addJobAction,
         StartAction.startSchedAction]
    ∧ resetStuckPosts posts = posts.map resetOne
    ∧ (∀ p : ScheduledPost, p.status = Status.publishing →
        resetOne p = { p with status := Status.scheduled })
    ∧ (∀ p : ScheduledPost, p.status ≠ Status.publishing → resetOne p = p)
    ∧ (∀ p : ScheduledPost,
        (resetOne p).retry_count = p.retry_count
        ∧ (resetOne p).scheduled_at = p.scheduled_at
        ∧ (resetOne p).published_at = p.published_at
        ∧ (resetOne p).last_error = p.last_error)
    ∧ (∀ p ∈ resetStuckPosts posts, p.status ≠ Status.publishing) := by
  refine ⟨rfl, rfl, ?_, ?_, ?_, ?_⟩
  · intro p hp
    unfold resetOne
    rw [if_pos hp]
  · intro p hp
    unfold resetOne
    rw [if_neg hp]
  · intro p
    unfold resetOne
    split <;> exact ⟨rfl, rfl, rfl, rfl⟩
  · intro p hp
    rcases List.mem_map.mp hp with ⟨q, hq, rfl⟩
    unfold resetOne
    split
    · simp
    · assumption

/-- Witness for C3 at a concrete stuck post. -/
theorem startupRecoveryResetsStuckPostsWitness :
    resetOne postStuck = { postStuck with status := Status.scheduled }
    ∧ resetOne postFailedW = postFailedW :=
  ⟨(startupRecoveryResetsStuckPosts []).2.2.1 postStuck rfl,
   (startupRecoveryResetsStuckPosts []).2.2.2.1 postFailedW (by decide)⟩


/-- A second due post sharing the scheduled_at of postW, with a larger id. -/
def postLater : ScheduledPost := { postW with id := 8 }

/-- C4: a poll cycle selects exactly the posts with status scheduled and
scheduled_at at most now, ordered by scheduled_at ascending with ties
between equal scheduled_at values broken by insertion order (ascending id),
so the ordering is total and deterministic; an empty result when nothing is
due is returned as an empty list, not an error. -/
theorem dueSelectorSpec (now : Nat) (posts : List ScheduledPost)
    (hids : posts.Pairwise (fun a b => a.id < b.id)) :
    (selectDue now posts).Perm (posts.filter (dueAt now))
    ∧ (∀ q, q ∈ selectDue now posts
        ↔ q ∈ posts ∧ q.status = Status.scheduled ∧ q.scheduled_at ≤ now)
    ∧ (selectDue now posts).Pairwise dueOrder
    ∧ (selectDue now posts).Pairwise (fun a b => a.scheduled_at ≤ b.scheduled_at)
    ∧ ((∀ q ∈ posts, ¬(q.status = Status.scheduled ∧ q.scheduled_at ≤ now)) →
        selectDue now posts = []) := by
  have hlex := selectDue_pairwise_dueOrder posts now hids
  refine ⟨List.perm_insertionSort _ _, mem_selectDue now posts, hlex,
    hlex.imp dueOrder_key_le, ?_⟩
  intro h
  have hfil : posts.filter (dueAt now) = [] := by
    rw [List.filter_eq_nil_iff]
    intro a ha
    simp only [dueAt, Bool.and_eq_true, beq_iff_eq, decide_eq_true_eq]
    intro hc
    exact h a ha hc
  unfold selectDue
  rw [hfil]
  rfl

/-- Witness for C4 on a concrete two-post table with equal due times. -/
theorem dueSelectorSpecWitness :
    (selectDue 1000 [postW, postLater]).Pairwise dueOrder
    ∧ (postW ∈ selectDue 1000 [postW, postLater]
        ↔ postW ∈ [postW, postLater] ∧ postW.status = Status.scheduled
          ∧ postW.scheduled_at ≤ 1000) :=
  ⟨(dueSelectorSpec 1000 [postW, postLater] (by decide)).2.2.1,
   (dueSelectorSpec 1000 [postW, postLater] (by decide)).2.1 postW⟩

/-- C5: within one poll cycle the due posts are processed sequentially in
selector order; for each one the first committed write is the claim
(status publishing) and the last committed write is the resolved outcome,
and replaying the trace from any persisted-status view, every dispatch
event fires while the persisted status of its post is publishing. -/
theorem claimPersistedBeforeDispatch (env : PublishEnv)
    (accounts : List Account) (now : Nat) (posts : List ScheduledPost) :
    processDuePostsTrace env accounts now posts
      = (selectDue now posts).flatMap (fun p => (processPost env accounts now p).2)
    ∧ (∀ st, dispatchSafe st (processDuePostsTrace env accounts now posts))
    ∧ (∀ p ∈ selectDue now posts,
        (processPost env accounts now p).2.head?
          = some (PersistEvent.persist { p with status := Status.publishing })
        ∧ (processPost env accounts now p).2.getLast?
          = some (PersistEvent.persist (processPost env accounts now p).1)) := by
  refine ⟨rfl, ?_, ?_⟩
  · intro st
    exact dispatchSafe_flatMap env accounts now (selectDue now posts) st
  · intro p _
    exact processPost_head_last env accounts now p

/-- Witness for C5 on a concrete cycle with one due post. -/
theorem claimPersistedBeforeDispatchWitness :
    dispatchSafe (fun _ => none) (processDuePostsTrace envFail [accMast] 1000 [postW])
    ∧ (processPost envFail [accMast] 1000 postW).2.head?
        = some (PersistEvent.persist { postW with status := Status.publishing }) :=
  ⟨(claimPersistedBeforeDispatch envFail [accMast] 1000 [postW]).2.1 (fun _ => none),
   ((claimPersistedBeforeDispatch envFail [accMast] 1000 [postW]).2.2 postW
     (by decide)).1⟩


/-- Unsupported-platform branch of the dispatch: once decryption has
succeeded and neither adapter matches, the outcome is a failure naming the
platform and no network call is made. -/
theorem publishToAccountTr_unsupported (env : PublishEnv) (p : ScheduledPost)
    (account : Account) (c : String)
    (hdec : env.decrypt account.encrypted_credentials = DecryptResult.ok c)
    (hm : account.platform ≠ "mastodon") (hb : account.platform ≠ "bluesky") :
    publishToAccountTr env p account
      = ((false, some ("Unsupported platform: " ++ account.platform), none), []) := by
  simp [publishToAccountTr, hdec, hm, hb]

/-- C6: for every post and account and every behaviour of the external
collaborators, the dispatch function returns a (success, error_message,
published_url) triple rather than raising: any failure carries a message,
a ValueError from decryption or an adapter is captured as success false
with its own message, and any other exception is captured as success false
with the generic Unexpected error message. -/
theorem dispatchCapturesAllFailures (env : PublishEnv) (post : ScheduledPost)
    (account : Account) :
    ((publishToAccount env post account).1 = false →
      ∃ m, (publishToAccount env post account).2.1 = some m)
    ∧ (∀ m, env.decrypt account.encrypted_credentials = DecryptResult.valueError m →
        publishToAccount env post account = (false, some m, none))
    ∧ (∀ m, env.decrypt account.encrypted_credentials = DecryptResult.otherError m →
        publishToAccount env post account
          = (false, some ("Unexpected error: " ++ m), none))
    ∧ (∀ c m, env.decrypt account.encrypted_credentials = DecryptResult.ok c →
        account.platform = "mastodon" →
        env.mastodonPost account.instance_url c post.content
          = AdapterResult.valueError m →
        publishToAccount env post account = (false, some m, none))
    ∧ (∀ c m, env.decrypt account.encrypted_credentials = DecryptResult.ok c →
        account.platform = "mastodon" →
        env.mastodonPost account.instance_url c post.content
          = AdapterResult.otherError m →
        publishToAccount env post account
          = (false, some ("Unexpected error: " ++ m), none))
    ∧ (∀ c m, env.decrypt account.encrypted_credentials = DecryptResult.ok c →
        account.platform = "bluesky" →
        env.blueskyPost c post.content = AdapterResult.valueError m →
        publishToAccount env post account = (false, some m, none))
    ∧ (∀ c m, env.decrypt account.encrypted_credentials = DecryptResult.ok c →
        account.platform = "bluesky" →
        env.blueskyPost c post.content = AdapterResult.otherError m →
        publishToAccount env post account
          = (false, some ("Unexpected error: " ++ m), none)) := by
  refine ⟨?_, ?_, ?_, ?_, ?_, ?_, ?_⟩
  · unfold publishToAccount publishToAccountTr
    rcases env.decrypt account.encrypted_credentials with c | m | m
    · by_cases hm : account.platform = "mastodon"
      · simp only [if_pos hm]
        rcases env.mastodonPost account.instance_url c post.content
          with url | m2 | m2 <;> simp
      · by_cases hb : account.platform = "bluesky"
        · simp only [if_neg hm, if_pos hb]
          rcases env.blueskyPost c post.content with url | m2 | m2 <;> simp
        · simp [hm, hb]
    · simp
    · simp
  · intro m hdec
    simp [publishToAccount, publishToAccountTr, hdec]
  · intro m hdec
    simp [publishToAccount, publishToAccountTr, hdec]
  · intro c m hdec hplat hpub
    simp [publishToAccount, publishToAccountTr, hdec, hplat, hpub]
  · intro c m hdec hplat hpub
    simp [publishToAccount, publishToAccountTr, hdec, hplat, hpub]
  · intro c m hdec hplat hpub
    simp [publishToAccount, publishToAccountTr, hdec, hplat, hpub]
  · intro c m hdec hplat hpub
    simp [publishToAccount, publishToAccountTr, hdec, hplat, hpub]

/-- Witness for C6 at a concrete failing decryption. -/
theorem dispatchCapturesAllFailuresWitness :
    publishToAccount envBadCred postW accMast
      = (false, some "Invalid encryption token or corrupted data", none) :=
  (dispatchCapturesAllFailures envBadCred postW accMast).2.1
    "Invalid encryption token or corrupted data" rfl


/-- C7 counterexample: for an account on an unregistered platform whose
credential blob fails to decrypt, dispatch reports the decryption error,
not an UnsupportedPlatform error, because the source decrypts before the
platform check; success is still false and no network is contacted. -/
theorem unsupportedPlatformCex :
    accUnknown.platform = "unknown"
    ∧ (publishToAccount envBadCred postW accUnknown).1 = false
    ∧ (publishToAccountTr envBadCred postW accUnknown).2 = []
    ∧ (publishToAccount envBadCred postW accUnknown).2.1
        ≠ some ("Unsupported platform: " ++ accUnknown.platform) := by
  refine ⟨rfl, rfl, rfl, by decide⟩

/-- C7 (amended): for an account whose platform is not a registered adapter,
provided credential decryption succeeds (the source decrypts first and a
decryption failure is reported instead), dispatch returns success false
with the UnsupportedPlatform error message and makes no network call; and
such a failure is handled by the same retry policy as every other failure:
back to scheduled with exponential backoff while retry_count is below 3,
failed afterwards. -/
theorem unsupportedPlatformOutcome (env : PublishEnv)
    (accounts : List Account) (now : Nat) (post : ScheduledPost)
    (account : Account) (c : String)
    (hdec : env.decrypt account.encrypted_credentials = DecryptResult.ok c)
    (hm : account.platform ≠ "mastodon") (hb : account.platform ≠ "bluesky")
    (hacct : accounts.find? (fun a => a.id == post.account_id) = some account) :
    publishToAccountTr env { post with status := Status.publishing } account
      = ((false, some ("Unsupported platform: " ++ account.platform), none), [])
    ∧ (post.retry_count < 3 →
        (processPost env accounts now post).1.status = Status.scheduled
        ∧ (processPost env accounts now post).1.retry_count = post.retry_count + 1
        ∧ (processPost env accounts now post).1.scheduled_at
            = now + 2 ^ post.retry_count
        ∧ (processPost env accounts now post).1.last_error
            = some ("Unsupported platform: " ++ account.platform))
    ∧ (3 ≤ post.retry_count →
        (processPost env accounts now post).1.status = Status.failed
        ∧ (processPost env accounts now post).1.last_error
            = some ("Unsupported platform: " ++ account.platform)) := by
  have htr := publishToAccountTr_unsupported env
    { post with status := Status.publishing } account c hdec hm hb
  have hpub : publishToAccount env { post with status := Status.publishing } account
      = (false, some ("Unsupported platform: " ++ account.platform), none) := by
    unfold publishToAccount
    rw [htr]
  refine ⟨htr, ?_, ?_⟩
  · intro hn
    rw [processPost_found_fail_retry env accounts now post account _ _ hacct hpub hn]
    exact ⟨rfl, rfl, rfl, rfl⟩
  · intro hn
    rw [processPost_found_fail_maxed env accounts now post account _ _ hacct hpub hn]
    exact ⟨rfl, rfl⟩

/-- Witness for C7 at a concrete unknown-platform account. -/
theorem unsupportedPlatformOutcomeWitness :
    publishToAccountTr envFail { postW with status := Status.publishing } accUnknown
      = ((false, some ("Unsupported platform: " ++ accUnknown.platform), none), [])
    ∧ (processPost envFail [{ accUnknown with id := 1 }] 1000 postW).1.status
        = Status.scheduled := by
  have h := unsupportedPlatformOutcome envFail [{ accUnknown with id := 1 }] 1000
    postW { accUnknown with id := 1 } "tok" rfl (by decide) (by decide) rfl
  exact ⟨h.1, (h.2.1 (by decide)).1⟩


/-- C8 counterexample: a manual retry of a concrete failed post with
retry_count 0 that fails again leaves the post failed with retry_count 1
and no backoff reschedule, whereas the engine transition rules would have
returned it to scheduled with a backoff since retry_count is below 3. -/
theorem manualRetryCex :
    postFailedW.retry_count = 0
    ∧ postFailedW.retry_count < 3
    ∧ (retryPost envFail [postFailedW] [accMast] 1 7 1000).2
        = [{ postFailedW with
             status := Status.failed,
             retry_count := 1,
             last_error := some "boom" }]
    ∧ (retryPost envFail [postFailedW] [accMast] 1 7 1000).1
        = RetryResponse.done false "boom"
    ∧ ∀ q ∈ (retryPost envFail [postFailedW] [accMast] 1 7 1000).2,
        q.status ≠ Status.scheduled := by
  refine ⟨rfl, by decide, by decide, by decide, by decide⟩

/-- C8 (amended): the manual retry of a failed or scheduled post claims it
as publishing and then applies its own outcome rule, which agrees with the
engine on success (published, published_at set, last_error cleared) but not
on failure: a failed attempt always sets status failed with last_error set
and retry_count incremented, regardless of retry_count, with no backoff and
no return to scheduled. -/
theorem manualRetryAlwaysFailsOnError (env : PublishEnv)
    (posts : List ScheduledPost) (accounts : List Account)
    (userId postId now : Nat) (post : ScheduledPost) (account : Account)
    (hfind : posts.find? (fun p => p.id == postId && p.user_id == userId)
      = some post)
    (hstat : post.status = Status.failed ∨ post.status = Status.scheduled)
    (hacct : accounts.find? (fun a => a.id == post.account_id && a.user_id == userId)
      = some account) :
    (retryPost env posts accounts userId postId now).2
      = updatePost (updatePost posts { post with status := Status.publishing })
          (retryPublishResult env { post with status := Status.publishing }
            account now)
    ∧ (∀ err url,
        publishToAccount env { post with status := Status.publishing } account
          = (true, err, url) →
        retryPublishResult env { post with status := Status.publishing } account now
          = { post with
              status := Status.published,
              published_at := some now,
              last_error := none })
    ∧ (∀ err url,
        publishToAccount env { post with status := Status.publishing } account
          = (false, err, url) →
        retryPublishResult env { post with status := Status.publishing } account now
          = { post with
              status := Status.failed,
              last_error := err,
              retry_count := post.retry_count + 1 }) := by
  have hguard : ¬(post.status ≠ Status.failed ∧ post.status ≠ Status.scheduled) := by
    rcases hstat with h1 | h1 <;> simp [h1]
  refine ⟨?_, ?_, ?_⟩
  · unfold retryPost
    rw [hfind]
    simp only [if_neg hguard, hacct]
  · intro err url hpub
    unfold retryPublishResult
    rw [hpub]
  · intro err url hpub
    unfold retryPublishResult
    rw [hpub]

/-- Witness for C8 at a concrete failing manual retry. -/
theorem manualRetryAlwaysFailsOnErrorWitness :
    (retryPost envFail [postFailedW] [accMast] 1 7 1000).2
      = updatePost (updatePost [postFailedW]
          { postFailedW with status := Status.publishing })
          (retryPublishResult envFail
            { postFailedW with status := Status.publishing } accMast 1000)
    ∧ retryPublishResult envFail { postFailedW with status := Status.publishing }
        accMast 1000
      = { postFailedW with
          status := Status.failed,
          last_error := some "boom",
          retry_count := postFailedW.retry_count + 1 } := by
  have h := manualRetryAlwaysFailsOnError envFail [postFailedW] [accMast] 1 7 1000
    postFailedW accMast rfl (Or.inl rfl) rfl
  exact ⟨h.1, h.2.2 (some "boom") none rfl⟩

/-- C9: for every post state reachable through the engine transitions and
the external create, immediate-publish and manual-retry operations,
published_at is set if and only if status is published. -/
theorem publishedAtIffStatusPublished (p : ScheduledPost)
    (h : ReachablePost p) :
    p.published_at.isSome ↔ p.status = Status.published := by
  induction h with
  | created id uid accountId content scheduledTime platform isImmediate createdAt =>
      unfold mkNewPost
      cases isImmediate <;> simp
  | immediateResolved env account now p hre hstat ih =>
      exact inv_immediatePublishResult env p account now
        (inv_of_not_published p ih (by simp [hstat]))
  | engineClaimed p hre hstat ih =>
      have hp := inv_of_not_published p ih (by simp [hstat])
      simp [hp]
  | engineResolved env accounts now p hre hstat ih =>
      exact inv_processPost env accounts now p
        (inv_of_not_published p ih (by simp [hstat]))
  | recovered p hre hstat ih =>
      have hp := inv_of_not_published p ih (by simp [hstat])
      simp [hp]
  | retryClaimed p hre hstat ih =>
      have hnp : p.status ≠ Status.published := by
        rcases hstat with h1 | h1 <;> simp [h1]
      have hp := inv_of_not_published p ih hnp
      simp [hp]
  | retryResolved env account now p hre hstat ih =>
      exact inv_retryPublishResult env p account now
        (inv_of_not_published p ih (by simp [hstat]))

/-- Witness for C9 at a freshly created scheduled post. -/
theorem publishedAtIffStatusPublishedWitness :
    ((mkNewPost 1 1 1 "hi" 0 "mastodon" false 0).published_at.isSome
      ↔ (mkNewPost 1 1 1 "hi" 0 "mastodon" false 0).status = Status.published) :=
  publishedAtIffStatusPublished _
    (ReachablePost.created 1 1 1 "hi" 0 "mastodon" false 0)


end Fedisched
